import Mathlib

/-!
Shallow embedding of the `position-observer` library (TypeScript) in Lean 4.

Numbers are modelled as rationals (`ℚ`); JavaScript `Math.round` is modelled
as `jsRound` (round half toward positive infinity); element identity is
modelled as `ℕ`; JS `Map`s are association lists with in-place update,
`WeakMap`s are functions into `Option`.

Sources embedded:
 * `src/utilities/Rect.ts` (`Rect.intersect`, `Rect.clip`, `Rect.clipOffsets`,
   `Rect.equals`, `Rect.sizeEqual`)
 * `src/utilities/threshold.ts` (`threshold`)
 * `src/utilities/rootMargin.ts` (`rootMargin`)
 * `src/observers/VisibilityObserver.ts` (batching callback)
 * `src/observers/PositionIntersectionObserver.ts` (`#observe`,
   `#onIntersection`, `visibleRect`, `isIntersecting`, `disconnect`)
 * `PositionObserver` orchestrator (`#notify`, `isEntryEqual`, `observe`,
   `unobserve`, `disconnect`, `#observePosition`, `#onVisibilityChange`,
   `#onPositionChange`, `#onRootBoundsChange`, `#onResize`)
-/

namespace PosObs


/-- A DOMRect-like record.  A genuine `DOMRect` has `top`/`left`/`right`/
`bottom` derived from `x`/`y`/`width`/`height` (see `mkDOMRect`), but the
plain objects produced by `Rect.clip` carry all eight fields independently,
so the model keeps them independent. -/
structure JSRect where
  x : ℚ
  y : ℚ
  width : ℚ
  height : ℚ
  top : ℚ
  left : ℚ
  right : ℚ
  bottom : ℚ
deriving DecidableEq

/-- Model of `new DOMRect(x, y, width, height)`: derived edges follow the DOM
specification (`left = min(x, x + width)` and so on). -/
def mkDOMRect (x y w h : ℚ) : JSRect :=
  { x := x, y := y, width := w, height := h,
    top := min y (y + h), bottom := max y (y + h),
    left := min x (x + w), right := max x (x + w) }

/-- The four inset amounts `{top, left, bottom, right}` used by `Rect.clip`
and produced by `Rect.clipOffsets`. -/
structure ClipInsets where
  top : ℚ
  left : ℚ
  bottom : ℚ
  right : ℚ
deriving DecidableEq

/-- A width/height pair, as passed to `Rect.sizeEqual`. -/
structure Size where
  width : ℚ
  height : ℚ
deriving DecidableEq

/-- JavaScript `Math.round`: rounds half toward positive infinity. -/
def jsRound (q : ℚ) : ℤ := ⌊q + 1 / 2⌋

/-- The width/height pair of a rectangle. -/
def JSRect.toSize (r : JSRect) : Size := ⟨r.width, r.height⟩

namespace Rect

/-- Model of `Rect.intersect` from `src/utilities/Rect.ts`: pairwise max/min of edges,
width/height clamped to zero, repackaged through the `DOMRect` constructor. -/
def intersect (rect1 rect2 : JSRect) : JSRect :=
  let left := max rect1.left rect2.left
  let right := min rect1.right rect2.right
  let top := max rect1.top rect2.top
  let bottom := min rect1.bottom rect2.bottom
  let width := max 0 (right - left)
  let height := max 0 (bottom - top)
  mkDOMRect left top width height

/-- Model of `Rect.clip` from `src/utilities/Rect.ts`: spreads `rect.toJSON()` (so `x`
and `y` are carried over unchanged), overrides the four edges by the insets,
then recomputes `width`/`height` from the new edges. -/
def clip (rect : JSRect) (c : ClipInsets) : JSRect :=
  let top := rect.top + c.top
  let left := rect.left + c.left
  let bottom := rect.bottom - c.bottom
  let right := rect.right - c.right
  { x := rect.x, y := rect.y,
    top := top, left := left, bottom := bottom, right := right,
    width := right - left, height := bottom - top }

/-- Model of `Rect.clipOffsets` from `src/utilities/Rect.ts`. -/
def clipOffsets (rect clippedRect : JSRect) : ClipInsets :=
  { top := clippedRect.top - rect.top,
    left := clippedRect.left - rect.left,
    bottom := rect.bottom - clippedRect.bottom,
    right := rect.right - clippedRect.right }

/-- Model of `Rect.equals` from `src/utilities/Rect.ts`.  `undefined` arguments are
modelled as `none`; `rect1 === rect2` on the nullish path is true exactly
when both are `undefined`. -/
def equals (rect1 rect2 : Option JSRect) : Bool :=
  match rect1, rect2 with
  | none, none => true
  | none, some _ => false
  | some _, none => false
  | some a, some b =>
      a.x == b.x && a.y == b.y && a.width == b.width && a.height == b.height

/-- Model of `Rect.sizeEqual` from `src/utilities/Rect.ts`: rounded widths and rounded
heights match. -/
def sizeEqual (rect1 rect2 : Size) : Bool :=
  jsRound rect1.width == jsRound rect2.width &&
  jsRound rect1.height == jsRound rect2.height

end Rect

/-- Model of `threshold` from `src/utilities/threshold.ts`:
`[...Array.from({length: 1000}, (_, i) => i / 1000), 1]`. -/
def threshold : List ℚ :=
  (List.range 1000).map (fun i : ℕ => (i : ℚ) / 1000) ++ [1]

/-- Model of `INSET` from `src/utilities/rootMargin.ts`. -/
def INSET : ℚ := -1

/-- Model of `MIN_SIZE` from `src/utilities/rootMargin.ts`. -/
def MIN_SIZE : ℚ := 1 - INSET * 2

/-- The template-literal result of `rootMargin`:
`"{top}px {right}px {bottom}px {left}px"` with the four already-negated
rounded values. -/
def marginString (top right bottom left : ℤ) : String :=
  toString top ++ "px " ++ toString right ++ "px " ++
  toString bottom ++ "px " ++ toString left ++ "px"

/-- Model of `rootMargin` from `src/utilities/rootMargin.ts`. -/
def rootMargin (rect rootBounds : JSRect) : String :=
  let width := max rect.width MIN_SIZE
  let height := max rect.height MIN_SIZE
  let top := rect.top - rootBounds.top - INSET
  let left := rect.left - rootBounds.left - INSET
  let right := rootBounds.right - rect.left - width - INSET
  let bottom := rootBounds.bottom - rect.top - height - INSET
  marginString (-(jsRound top)) (-(jsRound right)) (-(jsRound bottom))
    (-(jsRound left))

/-- Pointwise update of a function-backed map (models `WeakMap.set`,
`WeakMap.delete` via `none`, and single-point mutation of model state). -/
def fupd {β : Type} (f : ℕ → β) (k : ℕ) (v : β) : ℕ → β :=
  fun t => if t = k then v else f t

/-- Lookup in an association-list-backed `Map`. -/
def getA {β : Type} : List (ℕ × β) → ℕ → Option β
  | [], _ => none
  | (k', v) :: rest, k => if k' = k then some v else getA rest k

/-- Model of `Map.set`: updates the entry in place when the key exists (preserving
insertion order), otherwise appends. -/
def setA {β : Type} : List (ℕ × β) → ℕ → β → List (ℕ × β)
  | [], k, v => [(k, v)]
  | (k', v') :: rest, k, v =>
      if k' = k then (k, v) :: rest else (k', v') :: setA rest k v

/-- Model of `Map.delete`. -/
def delA {β : Type} (l : List (ℕ × β)) (k : ℕ) : List (ℕ × β) :=
  l.filter (fun p => p.1 ≠ k)

/-- A raw platform intersection result as consumed by the Visibility
Tracker (`IntersectionObserverEntry`, restricted to the fields the code
reads). -/
structure ISEntry where
  target : ℕ
  isIntersecting : Bool
  intersectionRect : JSRect
  boundingClientRect : JSRect
deriving DecidableEq

/-- The forwarding condition of the `VisibilityObserver` constructor
callback: `previousIntersection?.isIntersecting !== entry.isIntersecting ||
!Rect.equals(previousIntersection?.intersectionRect,
entry.intersectionRect)`.  When `previousIntersection` is `undefined`, the
optional chain yields `undefined`, which differs from any boolean. -/
def visChanged (previous : Option ISEntry) (entry : ISEntry) : Bool :=
  decide (previous.map ISEntry.isIntersecting ≠ some entry.isIntersecting) ||
  !(Rect.equals (previous.map ISEntry.intersectionRect)
      (some entry.intersectionRect))

/-- The entry loop of the `VisibilityObserver` constructor callback: reads
the previous snapshot, stores the new entry unconditionally
(`this.intersections.set(entry.target, entry)`), and keeps the entry in
`changedEntries` when `visChanged`.  Returns the final snapshot map and
`changedEntries`. -/
def visGo (snaps : ℕ → Option ISEntry) :
    List ISEntry → ((ℕ → Option ISEntry) × List ISEntry)
  | [] => (snaps, [])
  | entry :: rest =>
    let previous := snaps entry.target
    let next := visGo (fupd snaps entry.target (some entry)) rest
    (next.1, if visChanged previous entry then entry :: next.2 else next.2)

/-- The whole `VisibilityObserver` batching callback: runs the entry loop
and then invokes the caller's callback once when `changedEntries.length >
0`.  The third component records the callback invocations made. -/
def visCallback (snaps : ℕ → Option ISEntry) (entries : List ISEntry) :
    (ℕ → Option ISEntry) × List ISEntry × List (List ISEntry) :=
  let r := visGo snaps entries
  (r.1, r.2, if r.2.length > 0 then [r.2] else [])

/-- Model of `PositionObserverEntry`. -/
structure PosEntry where
  target : ℕ
  boundingClientRect : JSRect
  intersectionRect : JSRect
  isIntersecting : Bool
  rootBounds : JSRect
deriving DecidableEq

/-- Model of `isEntryEqual` from the orchestrator module: false when the second
entry is nullish, otherwise same target, same `isIntersecting`, and
`Rect.equals` on both `boundingClientRect` and `intersectionRect`. -/
def isEntryEqual (first : PosEntry) (second : Option PosEntry) : Bool :=
  match second with
  | none => false
  | some second =>
    first.target == second.target &&
    first.isIntersecting == second.isIntersecting &&
    Rect.equals (some first.boundingClientRect)
      (some second.boundingClientRect) &&
    Rect.equals (some first.intersectionRect) (some second.intersectionRect)

/-- The entry loop of `PositionObserver.#notify`: skips an entry that is
`isEntryEqual` to the cached entry for its target, otherwise stores it
(`this.#positions.set(target, entry)`) and pushes it onto `records`. -/
def notifyGo (positions : ℕ → Option PosEntry) :
    List PosEntry → ((ℕ → Option PosEntry) × List PosEntry)
  | [] => (positions, [])
  | entry :: rest =>
    if isEntryEqual entry (positions entry.target) then
      notifyGo positions rest
    else
      let next := notifyGo (fupd positions entry.target (some entry)) rest
      (next.1, entry :: next.2)

/-- The whole `PositionObserver.#notify`: runs the entry loop and invokes
the caller's callback once when `records.length > 0`.  The third component
records the callback invocations made. -/
def notify (positions : ℕ → Option PosEntry) (entries : List PosEntry) :
    (ℕ → Option PosEntry) × List PosEntry × List (List PosEntry) :=
  let r := notifyGo positions entries
  (r.1, r.2, if r.2.length > 0 then [r.2] else [])

/-- A raw platform intersection result as consumed by the Fine Position
Tracker's `#onIntersection` (the fields the code reads). -/
structure RawEntry where
  target : ℕ
  intersectionRatio : ℚ
  intersectionRect : JSRect
  boundingClientRect : JSRect
deriving DecidableEq

/-- State of one `PositionIntersectionObserver` instance.  `observer` is
the current inner `IntersectionObserver` handle (`#observer`),
`subConnected` tracks which inner subscriptions ever created are still
connected, and `nextSub` allocates fresh handles. -/
structure PIOState where
  observer : Option ℕ
  subConnected : ℕ → Bool
  nextSub : ℕ
  clientRect : JSRect
  previousIntersectionRatio : Option ℚ
  clip : Option ClipInsets
  rootBounds : JSRect

/-- The `visibleRect` getter: the element's rectangle clipped by
`options.clip` if present, else the raw rectangle. -/
def PIOState.visibleRect (s : PIOState) : JSRect :=
  match s.clip with
  | some c => Rect.clip s.clientRect c
  | none => s.clientRect

/-- The `isIntersecting` getter: `visibleRect` has positive width and
height. -/
def PIOState.isIntersecting (s : PIOState) : Bool :=
  decide (s.visibleRect.width > 0) && decide (s.visibleRect.height > 0)

/-- Model of `#observe`: disconnects the prior inner subscription (if any) and
creates a fresh one (`new IntersectionObserver(...)`, `observe(element)`).
The margins and thresholds passed to the platform do not affect the model
state. -/
def pioObserve (s : PIOState) : PIOState :=
  let s1 := match s.observer with
    | some t => {s with subConnected := fupd s.subConnected t false}
    | none => s
  { s1 with observer := some s1.nextSub,
            subConnected := fupd s1.subConnected s1.nextSub true,
            nextSub := s1.nextSub + 1 }

/-- The `PositionIntersectionObserver` constructor: stores the options and
client rect, then calls `#observe`. -/
def pioInit (clientRect : JSRect) (clip : Option ClipInsets)
    (rootBounds : JSRect) : PIOState :=
  pioObserve { observer := none, subConnected := fun _ => false, nextSub := 0,
               clientRect := clientRect, previousIntersectionRatio := none,
               clip := clip, rootBounds := rootBounds }

/-- Model of `#onIntersection`: uses only the last entry of the delivered batch;
stores the new bounding rectangle; if the ratio or the rectangle changed,
recomputes intersection with the stored root bounds, suppressing the update
entirely when that intersection is empty; otherwise, when this is not the
first ratio observation or the rectangle changed, emits a change entry and
re-subscribes.  Returns the new state, the entry passed to the callback (if
any), and whether `#observe` was re-invoked. -/
def onIntersection (s : PIOState) (entries : List RawEntry) :
    PIOState × Option PosEntry × Bool :=
  match s.observer with
  | none => (s, none, false)
  | some _ =>
    match entries.getLast? with
    | none => (s, none, false)
    | some entry =>
      let previousClientRect := s.clientRect
      let s1 := {s with clientRect := entry.boundingClientRect}
      let previousRatio := s.previousIntersectionRatio
      let clientRectChanged :=
        !(Rect.equals (some entry.boundingClientRect)
            (some previousClientRect))
      if decide (some entry.intersectionRatio ≠ previousRatio) ||
          clientRectChanged then
        let rootBounds := s.rootBounds
        let rootIntersection :=
          Rect.intersect entry.boundingClientRect rootBounds
        let isIntersecting := decide (rootIntersection.width > 0) &&
          decide (rootIntersection.height > 0)
        if isIntersecting then
          let s2 := {s1 with
            previousIntersectionRatio := some entry.intersectionRatio}
          if previousRatio.isSome || clientRectChanged then
            (pioObserve s2,
             some { target := entry.target,
                    boundingClientRect := entry.boundingClientRect,
                    intersectionRect := entry.intersectionRect,
                    isIntersecting := isIntersecting,
                    rootBounds := rootBounds },
             true)
          else (s2, none, false)
        else (s1, none, false)
      else (s1, none, false)

/-- One externally observable step of a `PositionIntersectionObserver`:
either a delivery of a platform batch to `#onIntersection`, or a public
`disconnect()` (which tears down the current subscription and keeps the
`#observer` field). -/
inductive PStep where
  | inter (entries : List RawEntry)
  | disc

/-- Step function for `PStep`. -/
def pioStep (s : PIOState) : PStep → PIOState
  | .inter es => (onIntersection s es).1
  | .disc =>
    match s.observer with
    | some t => {s with subConnected := fupd s.subConnected t false}
    | none => s

/-- Run a `PositionIntersectionObserver` from its constructor state through
a sequence of steps. -/
def pioRun (s : PIOState) (steps : List PStep) : PIOState :=
  steps.foldl pioStep s

/-- Inner invariant: every connected inner subscription is the current
`#observer` handle. -/
def PIOInv (s : PIOState) : Prop :=
  ∀ t, s.subConnected t = true → s.observer = some t

/-- A raw platform resize result as consumed by the orchestrator's
`#onResize` (`borderBoxSize[0]` plus the re-measured bounding rectangle the
world would report for `target.getBoundingClientRect()`). -/
structure RsEntry where
  target : ℕ
  inlineSize : ℚ
  blockSize : ℚ
  measuredRect : JSRect
deriving DecidableEq

/-- State of one `PositionObserver` orchestrator.  `positionObservers` is
the `Map<Element, PositionIntersectionObserver>` (values are tracker
handles); `connected`, `owner` and `trackerRect` track, for every tracker
handle ever allocated (`nextTracker` allocates), whether it is still
connected, which element it was created for, and its current client
rectangle; `resizeObserved`/`visibilityObserved` are the membership of the
coarse `ResizeObserver` and of the Visibility Tracker; `intersections` and
`positions` are the two `WeakMap`s; `calls` records the callback
invocations made. -/
structure OrchState where
  positionObservers : List (ℕ × ℕ)
  connected : ℕ → Bool
  owner : ℕ → ℕ
  trackerRect : ℕ → JSRect
  nextTracker : ℕ
  resizeObserved : ℕ → Bool
  visibilityObserved : ℕ → Bool
  intersections : ℕ → Option ISEntry
  positions : ℕ → Option PosEntry
  rootBounds : JSRect
  calls : List (List PosEntry)

/-- The lazily-evaluated `clip` getter passed to a tracker: reads the
Visibility Tracker's cached intersection for the element on demand and
derives the clip offsets. -/
def clipOf (s : OrchState) (e : ℕ) : Option ClipInsets :=
  (s.intersections e).map
    (fun i => Rect.clipOffsets i.boundingClientRect i.intersectionRect)

/-- The `visibleRect` of tracker `t` for element `e`, evaluated in
orchestrator state `s` (the getter reads the dynamic clip). -/
def visibleRectOf (s : OrchState) (t e : ℕ) : JSRect :=
  match clipOf s e with
  | some c => Rect.clip (s.trackerRect t) c
  | none => s.trackerRect t

/-- The `isIntersecting` getter of tracker `t` for element `e`. -/
def isIntersectingOf (s : OrchState) (t e : ℕ) : Bool :=
  decide ((visibleRectOf s t e).width > 0) &&
  decide ((visibleRectOf s t e).height > 0)

/-- Model of `this.#positionObservers.get(element)?.disconnect()`. -/
def disconnectTracker (s : OrchState) (o : Option ℕ) : OrchState :=
  match o with
  | some t => {s with connected := fupd s.connected t false}
  | none => s

/-- Model of `#observePosition`: disconnects the element's previous tracker (if
any), constructs a fresh `PositionIntersectionObserver` seeded with
`clientRect`, stores it in the map, and returns it. -/
def observePosition (s : OrchState) (e : ℕ) (clientRect : JSRect) :
    OrchState × ℕ :=
  let s1 := disconnectTracker s (getA s.positionObservers e)
  let n := s1.nextTracker
  ({ s1 with connected := fupd s1.connected n true,
             owner := fupd s1.owner n e,
             trackerRect := fupd s1.trackerRect n clientRect,
             nextTracker := n + 1,
             positionObservers := setA s1.positionObservers e n }, n)

/-- Feeding a record batch through `#notify` (claim C1's gate): updates the
`positions` cache and appends the callback invocation, if any. -/
def applyNotify (s : OrchState) (records : List PosEntry) : OrchState :=
  let r := notify s.positions records
  {s with positions := r.1, calls := s.calls ++ r.2.2}

/-- Model of `PositionObserver.observe`: delegates to the Visibility Tracker only. -/
def observe (s : OrchState) (e : ℕ) : OrchState :=
  {s with visibilityObserved := fupd s.visibilityObserved e true}

/-- Model of `PositionObserver.unobserve(element)` (element branch): disconnects the
element's tracker (leaving it in the map), removes the element from the
Visibility Tracker (which also discards its cached intersection), and
deletes the cached entry. -/
def unobserve (s : OrchState) (e : ℕ) : OrchState :=
  let s1 := disconnectTracker s (getA s.positionObservers e)
  let s2 := {s1 with
    visibilityObserved := fupd s1.visibilityObserved e false,
    intersections := fupd s1.intersections e none}
  {s2 with positions := fupd s2.positions e none}

/-- Model of `PositionObserver.disconnect`: disconnects every tracker in the map,
clears the map, and disconnects the resize, root-bounds and visibility
observers (the two `WeakMap`s are left as they are). -/
def disconnect (s : OrchState) : OrchState :=
  { s with
    connected := (s.positionObservers.map Prod.snd).foldl
      (fun c v => fupd c v false) s.connected,
    positionObservers := [],
    resizeObserved := fun _ => false,
    visibilityObserved := fun _ => false }

/-- Model of `#onVisibilityChange`: for each changed entry, (re)create or tear down
the element's tracker and coarse resize subscription, build a merged record
(using the tracker's `visibleRect` when available, the raw intersection
rectangle otherwise), and push the batch through the dedup gate. -/
def onVisibilityChange (s : OrchState) (entries : List ISEntry) :
    OrchState :=
  let r := entries.foldl (fun (acc : OrchState × List PosEntry) entry =>
    let s := acc.1
    let s1 := if entry.isIntersecting then
        let p := observePosition s entry.target entry.boundingClientRect
        {p.1 with resizeObserved := fupd p.1.resizeObserved entry.target true}
      else
        let d := disconnectTracker s (getA s.positionObservers entry.target)
        let d2 := {d with
          positionObservers := delA d.positionObservers entry.target}
        {d2 with
          resizeObserved := fupd d2.resizeObserved entry.target false}
    let record : PosEntry :=
      { target := entry.target,
        boundingClientRect := entry.boundingClientRect,
        intersectionRect := match getA s1.positionObservers entry.target with
          | some t => visibleRectOf s1 t entry.target
          | none => entry.intersectionRect,
        isIntersecting := entry.isIntersecting,
        rootBounds := s1.rootBounds }
    (s1, acc.2 ++ [record])) (s, [])
  applyNotify r.1 r.2

/-- The visibility path end to end: the Visibility Tracker's batching
callback (claim C5) runs first, updating the cached intersections; when it
forwards a non-empty changed batch, the orchestrator's
`#onVisibilityChange` reacts to it. -/
def onVisibilityRaw (s : OrchState) (raw : List ISEntry) : OrchState :=
  let r := visGo s.intersections raw
  let s1 := {s with intersections := r.1}
  if r.2.length > 0 then onVisibilityChange s1 r.2 else s1

/-- Model of `#onPositionChange`: the tracker `t` (which has already stored the new
bounding rectangle as its client rect) reports one entry; wrap it using the
tracker's own geometry and push it through the dedup gate. -/
def onPositionChange (s : OrchState) (t : ℕ) (entry : PosEntry) :
    OrchState :=
  let s0 := {s with trackerRect := fupd s.trackerRect t entry.boundingClientRect}
  applyNotify s0 [{ target := entry.target,
                    boundingClientRect := entry.boundingClientRect,
                    intersectionRect := visibleRectOf s0 t entry.target,
                    isIntersecting := entry.isIntersecting,
                    rootBounds := s0.rootBounds }]

/-- Model of `#onRootBoundsChange`: for every currently tracked element (the map's
keys), re-measure (`measure` is the world's `getBoundingClientRect`), force
a fresh tracker subscription, and push one batched call through the dedup
gate. -/
def onRootBoundsChange (s : OrchState) (newRootBounds : JSRect)
    (measure : ℕ → JSRect) : OrchState :=
  let s0 := {s with rootBounds := newRootBounds}
  let keys := s0.positionObservers.map Prod.fst
  let r := keys.foldl (fun (acc : OrchState × List PosEntry) e =>
    let bcr := measure e
    let p := observePosition acc.1 e bcr
    (p.1, acc.2 ++ [{ target := e, boundingClientRect := bcr,
                      intersectionRect := visibleRectOf p.1 p.2 e,
                      isIntersecting := isIntersectingOf p.1 p.2 e,
                      rootBounds := newRootBounds }])) (s0, [])
  applyNotify r.1 r.2

/-- Model of `#onResize`: for each resize result, skip when the rounded border-box
size equals the cached entry's rounded size; otherwise re-measure, refresh
the tracker, and emit an entry with the current visibility state
(defaulting to not-intersecting). -/
def onResize (s : OrchState) (entries : List RsEntry) : OrchState :=
  let r := entries.foldl (fun (acc : OrchState × List PosEntry) entry =>
    let s := acc.1
    let previous := s.positions entry.target
    let skip := match previous with
      | some prev => Rect.sizeEqual prev.boundingClientRect.toSize
          ⟨entry.inlineSize, entry.blockSize⟩
      | none => false
    if skip then acc
    else
      let bcr := entry.measuredRect
      let p := observePosition s entry.target bcr
      (p.1, acc.2 ++ [{ target := entry.target, boundingClientRect := bcr,
                        intersectionRect := visibleRectOf p.1 p.2 entry.target,
                        isIntersecting := ((p.1.intersections entry.target).map
                          ISEntry.isIntersecting).getD false,
                        rootBounds := p.1.rootBounds }])) (s, [])
  applyNotify r.1 r.2

/-- One externally triggered operation on the orchestrator: a public API
call or a host-scheduled callback delivery (with the world inputs the
callback would read). -/
inductive Op where
  | observe (e : ℕ)
  | unobserve (e : ℕ)
  | disconnect
  | visibility (raw : List ISEntry)
  | posChange (t : ℕ) (entry : PosEntry)
  | rootBoundsChange (rb : JSRect) (measure : ℕ → JSRect)
  | resize (entries : List RsEntry)

/-- Step function for `Op`. -/
def stepOp (s : OrchState) : Op → OrchState
  | .observe e => observe s e
  | .unobserve e => unobserve s e
  | .disconnect => disconnect s
  | .visibility raw => onVisibilityRaw s raw
  | .posChange t entry => onPositionChange s t entry
  | .rootBoundsChange rb measure => onRootBoundsChange s rb measure
  | .resize entries => onResize s entries

/-- Run the orchestrator from a state through a sequence of operations. -/
def runOps (s : OrchState) (ops : List Op) : OrchState :=
  ops.foldl stepOp s

/-- The freshly constructed (empty) orchestrator. -/
def initOrch (rootBounds : JSRect) : OrchState :=
  { positionObservers := [], connected := fun _ => false,
    owner := fun _ => 0, trackerRect := fun _ => ⟨0, 0, 0, 0, 0, 0, 0, 0⟩,
    nextTracker := 0, resizeObserved := fun _ => false,
    visibilityObserved := fun _ => false, intersections := fun _ => none,
    positions := fun _ => none, rootBounds := rootBounds, calls := [] }

/-- Orchestrator invariant: every connected tracker is the map entry of
the element it was created for, and its handle is below the allocation
counter. -/
def OrchInv (s : OrchState) : Prop :=
  ∀ t, s.connected t = true →
    getA s.positionObservers (s.owner t) = some t ∧ t < s.nextTracker

/-- Sample rectangle at the origin (edges consistent with `x=y=0`,
`w=h=10`). -/
def unitRect : JSRect := ⟨0, 0, 10, 10, 0, 0, 10, 10⟩

/-- Sample root bounds `(0, 0, 100, 100)`. -/
def rootRect : JSRect := ⟨0, 0, 100, 100, 0, 0, 100, 100⟩

/-- Sample rectangle entirely outside `rootRect`. -/
def farRect : JSRect := ⟨200, 200, 10, 10, 200, 200, 210, 210⟩

/-- Sample raw intersection entry whose bounding rectangle misses
`rootRect`. -/
def farEntry : RawEntry := ⟨7, 0, farRect, farRect⟩

/-- Sample `PositionIntersectionObserver` state with a live inner
subscription. -/
def pioSample : PIOState :=
  { observer := some 0, subConnected := fupd (fun _ => false) 0 true,
    nextSub := 1, clientRect := unitRect,
    previousIntersectionRatio := none, clip := none, rootBounds := rootRect }

theorem getA_setA_self {β : Type} (l : List (ℕ × β)) (k : ℕ) (v : β) :
    getA (setA l k v) k = some v := by
  induction l with
  | nil => simp [getA, setA]
  | cons hd tl ih =>
    obtain ⟨k', v'⟩ := hd
    by_cases h : k' = k <;> simp [getA, setA, h, ih]

theorem getA_setA_ne {β : Type} (l : List (ℕ × β)) (k k' : ℕ) (v : β)
    (h : k' ≠ k) : getA (setA l k v) k' = getA l k' := by
  induction l with
  | nil => simp [getA, setA, Ne.symm h]
  | cons hd tl ih =>
    obtain ⟨k₀, v₀⟩ := hd
    by_cases h0 : k₀ = k
    · simp [getA, setA, h0, Ne.symm h]
    · simp [getA, setA, h0, ih]

theorem getA_delA_ne {β : Type} (l : List (ℕ × β)) (k k' : ℕ) (h : k' ≠ k) :
    getA (delA l k) k' = getA l k' := by
  induction l with
  | nil => simp [getA, delA]
  | cons hd tl ih =>
    obtain ⟨k₀, v₀⟩ := hd
    by_cases h0 : k₀ = k
    · simp_all [getA, delA, List.filter, Ne.symm h]
    · by_cases h1 : k₀ = k' <;> simp_all [getA, delA, List.filter]

theorem getA_mem_snd {β : Type} (l : List (ℕ × β)) (k : ℕ) (v : β)
    (h : getA l k = some v) : v ∈ l.map Prod.snd := by
  induction l with
  | nil => simp [getA] at h
  | cons hd tl ih =>
    obtain ⟨k₀, v₀⟩ := hd
    by_cases h0 : k₀ = k
    · simp [getA, h0] at h
      simp [h]
    · simp [getA, h0] at h
      simp [ih h]

theorem beq_rat (p q : ℚ) : (p == q) = decide (p = q) := rfl

/-- Claim C6 counterexample: the resolution table does not have 1002
entries; `Array.from({length: 1000}, (_, i) => i / 1000)` produces the 1000
ratios `0/1000 .. 999/1000`, and exactly one value (`1`) is appended, for a
total of 1001. -/
theorem C6_counterexample : ¬ threshold.length = 1002 := by
  rw [threshold, List.length_append, List.length_map, List.length_range]
  decide

/-- Claim C6 (amended): the Resolution Table is a fixed strictly ascending
sequence of 1001 ratios, `i/1000` for every `i` in `[0, 999]`, plus an
explicitly appended final value `1.0`. -/
theorem C6_resolution_table :
    threshold.length = 1001 ∧
    (∀ i : ℕ, threshold[i]? =
      if i < 1000 then some ((i : ℚ) / 1000)
      else if i = 1000 then some 1 else none) ∧
    threshold.Pairwise (· < ·) := by
  have hlen : (List.map (fun i : ℕ => (i : ℚ) / 1000) (List.range 1000)).length
      = 1000 := by
    rw [List.length_map, List.length_range]
  refine ⟨?_, ?_, ?_⟩
  · rw [threshold, List.length_append, hlen]
    rfl
  · intro i
    by_cases h : i < 1000
    · rw [if_pos h, threshold, List.getElem?_append,
        if_pos (by rw [hlen]; exact h), List.getElem?_map,
        List.getElem?_range h]
      rfl
    · rw [if_neg h]
      by_cases he : i = 1000
      · subst he
        rw [if_pos rfl, threshold,
          List.getElem?_append_right (by rw [hlen]), hlen, Nat.sub_self]
        rfl
      · rw [if_neg he, threshold,
          List.getElem?_append_right (by rw [hlen]; omega), hlen]
        apply List.getElem?_eq_none
        rw [List.length_singleton]
        omega
  · rw [threshold, List.pairwise_append]
    refine ⟨?_, List.pairwise_singleton _ _, ?_⟩
    · rw [List.pairwise_map]
      refine (List.pairwise_lt_range 1000).imp ?_
      intro a b hab
      have hc : (a : ℚ) < (b : ℚ) := by exact_mod_cast hab
      have h1000 : (0 : ℚ) < 1000 := by norm_num
      exact div_lt_div_of_pos_right hc h1000
    · intro a ha b hb
      rw [List.mem_singleton] at hb
      subst hb
      rw [List.mem_map] at ha
      obtain ⟨i, hi, rfl⟩ := ha
      rw [List.mem_range] at hi
      rw [div_lt_one (by norm_num)]
      exact_mod_cast hi

/-- Claim C7 counterexample: with `outer = DOMRect(0, 0, 10, 10)` and
`inner = DOMRect(2, 2, 5, 5)`, `clip(outer, clipOffsets(outer, inner))`
is not equal to `inner` under the system's rectangle equality, because
`Rect.clip` keeps `outer`'s `x`/`y` fields. -/
theorem C7_counterexample :
    Rect.equals
      (some (Rect.clip (mkDOMRect 0 0 10 10)
        (Rect.clipOffsets (mkDOMRect 0 0 10 10) (mkDOMRect 2 2 5 5))))
      (some (mkDOMRect 2 2 5 5)) = false := by
  decide

/-- Claim C7 (amended): `clipOffsets(outer, inner)` returns the four insets
such that `clip(outer, insets)` reproduces `inner`'s four edges exactly, and
has width `inner.right - inner.left` and height `inner.bottom - inner.top`
(equal to `inner`'s own width/height whenever `inner`'s fields are
edge-consistent); the `x` and `y` fields of the result, however, are carried
over from `outer`, so the round trip does not hold under `Rect.equals`. -/
theorem C7_clip_roundtrip (outer inner : JSRect) :
    (Rect.clip outer (Rect.clipOffsets outer inner)).top = inner.top ∧
    (Rect.clip outer (Rect.clipOffsets outer inner)).left = inner.left ∧
    (Rect.clip outer (Rect.clipOffsets outer inner)).bottom = inner.bottom ∧
    (Rect.clip outer (Rect.clipOffsets outer inner)).right = inner.right ∧
    (Rect.clip outer (Rect.clipOffsets outer inner)).width =
      inner.right - inner.left ∧
    (Rect.clip outer (Rect.clipOffsets outer inner)).height =
      inner.bottom - inner.top ∧
    (Rect.clip outer (Rect.clipOffsets outer inner)).x = outer.x ∧
    (Rect.clip outer (Rect.clipOffsets outer inner)).y = outer.y := by
  refine ⟨?_, ?_, ?_, ?_, ?_, ?_, rfl, rfl⟩ <;>
    simp only [Rect.clip, Rect.clipOffsets] <;> ring

/-- Claim C8: rectangle equality is reflexive and symmetric; `equals` is
true on two missing (`undefined`) arguments, false when exactly one is
missing, and on two present rectangles it decides exact component-wise
equality of `x`, `y`, `width`, `height`. -/
theorem C8_equals_refl_symm :
    (∀ r : JSRect, Rect.equals (some r) (some r) = true) ∧
    (∀ a b : Option JSRect, Rect.equals a b = Rect.equals b a) ∧
    Rect.equals none none = true ∧
    (∀ r : JSRect, Rect.equals none (some r) = false) ∧
    (∀ r : JSRect, Rect.equals (some r) none = false) ∧
    (∀ a b : JSRect, Rect.equals (some a) (some b) =
      decide (a.x = b.x ∧ a.y = b.y ∧ a.width = b.width ∧
        a.height = b.height)) := by
  have hchar : ∀ a b : JSRect, Rect.equals (some a) (some b) =
      decide (a.x = b.x ∧ a.y = b.y ∧ a.width = b.width ∧
        a.height = b.height) := by
    intro a b
    rw [Bool.eq_iff_iff]
    simp [Rect.equals, Bool.and_eq_true, beq_rat, and_assoc]
  refine ⟨?_, ?_, rfl, fun _ => rfl, fun _ => rfl, hchar⟩
  · intro r
    rw [hchar]
    simp
  · intro a b
    cases a with
    | none => cases b <;> rfl
    | some a =>
      cases b with
      | none => rfl
      | some b =>
        rw [hchar, hchar]
        rw [decide_eq_decide]
        constructor <;>
          exact fun h => ⟨h.1.symm, h.2.1.symm, h.2.2.1.symm, h.2.2.2.symm⟩

/-- Claim C9: for every element rectangle and root bounds, `rootMargin`
produces the string of four length values in top/right/bottom/left order,
each the negative of the rounded signed distance between the corresponding
observation-zone edge and the root edge, where the observation zone is the
element's rectangle inset by one unit on every side (its width/height first
clamped up to `MIN_SIZE = 1 - 2·INSET = 3`), and both zone side lengths are
at least `1`, so the requested zone is never degenerate. -/
theorem C9_root_margin (rect rootBounds : JSRect) :
    rootMargin rect rootBounds =
      marginString
        (-(jsRound ((rect.top + 1) - rootBounds.top)))
        (-(jsRound (rootBounds.right - (rect.left + max rect.width 3 - 1))))
        (-(jsRound (rootBounds.bottom - (rect.top + max rect.height 3 - 1))))
        (-(jsRound ((rect.left + 1) - rootBounds.left))) ∧
    (1 : ℚ) ≤ (rect.left + max rect.width 3 - 1) - (rect.left + 1) ∧
    (1 : ℚ) ≤ (rect.top + max rect.height 3 - 1) - (rect.top + 1) := by
  have hI : INSET = -1 := rfl
  have hM : MIN_SIZE = 3 := by rw [MIN_SIZE, hI]; norm_num
  refine ⟨?_, ?_, ?_⟩
  · have e1 : rect.top - rootBounds.top - INSET =
        (rect.top + 1) - rootBounds.top := by rw [hI]; ring
    have e2 : rootBounds.right - rect.left - max rect.width MIN_SIZE - INSET =
        rootBounds.right - (rect.left + max rect.width 3 - 1) := by
      rw [hM, hI]; ring
    have e3 : rootBounds.bottom - rect.top - max rect.height MIN_SIZE - INSET =
        rootBounds.bottom - (rect.top + max rect.height 3 - 1) := by
      rw [hM, hI]; ring
    have e4 : rect.left - rootBounds.left - INSET =
        (rect.left + 1) - rootBounds.left := by rw [hI]; ring
    rw [rootMargin]
    rw [e1, e2, e3, e4]
  · have := le_max_right rect.width (3 : ℚ)
    linarith
  · have := le_max_right rect.height (3 : ℚ)
    linarith

/-- Claim C10: `Rect.clip` leaves the `x` and `y` fields of the result equal
to the input's `x` and `y` (only the edges and width/height are recomputed),
so for a rectangle whose `x`/`y` agree with its `left`/`top` edges and
nonzero top/left insets, the clipped rectangle's `x`/`y` disagree with its
`left`/`top` edges. -/
theorem C10_clip_keeps_xy (rect : JSRect) (c : ClipInsets)
    (hx : rect.x = rect.left) (hy : rect.y = rect.top)
    (hl : c.left ≠ 0) (ht : c.top ≠ 0) :
    (∀ (r : JSRect) (d : ClipInsets),
      (Rect.clip r d).x = r.x ∧ (Rect.clip r d).y = r.y) ∧
    (Rect.clip rect c).x ≠ (Rect.clip rect c).left ∧
    (Rect.clip rect c).y ≠ (Rect.clip rect c).top := by
  refine ⟨fun r d => ⟨rfl, rfl⟩, ?_, ?_⟩
  · simp only [Rect.clip, hx]
    intro h
    apply hl
    linarith
  · simp only [Rect.clip, hy]
    intro h
    apply ht
    linarith

/-- Witness for claim C10 at the rectangle `{x, y, w, h} = (0, 0, 10, 10)`
(edges consistent) and insets `{top := 1, left := 1, bottom := 1,
right := 1}`. -/
theorem C10_clip_keeps_xy_witness :
    (⟨0, 0, 10, 10, 0, 0, 10, 10⟩ : JSRect).x =
      (⟨0, 0, 10, 10, 0, 0, 10, 10⟩ : JSRect).left ∧
    (Rect.clip ⟨0, 0, 10, 10, 0, 0, 10, 10⟩ ⟨1, 1, 1, 1⟩).x ≠
      (Rect.clip ⟨0, 0, 10, 10, 0, 0, 10, 10⟩ ⟨1, 1, 1, 1⟩).left := by
  refine ⟨rfl, ?_⟩
  exact (C10_clip_keeps_xy ⟨0, 0, 10, 10, 0, 0, 10, 10⟩ ⟨1, 1, 1, 1⟩
    rfl rfl (by norm_num) (by norm_num)).2.1

theorem getLast?_cons_eq {α : Type} (a : α) (l : List α) :
    (a :: l).getLast? = match l.getLast? with
      | some x => some x
      | none => some a := by
  cases l with
  | nil => rfl
  | cons b m =>
    rw [List.getLast?_cons_cons]
    cases h : (b :: m).getLast? with
    | none => exact absurd h (by simp)
    | some y => rfl

theorem visGo_fst (sn : ℕ → Option ISEntry) (es : List ISEntry) (t : ℕ) :
    (visGo sn es).1 t =
      match (es.filter (fun e => e.target == t)).getLast? with
      | some e => some e
      | none => sn t := by
  induction es generalizing sn with
  | nil => rfl
  | cons e rest ih =>
    have h1 : (visGo sn (e :: rest)).1 =
        (visGo (fupd sn e.target (some e)) rest).1 := rfl
    rw [h1, ih, List.filter_cons]
    by_cases ht : e.target = t
    · simp only [ht, beq_self_eq_true, if_true]
      rw [getLast?_cons_eq]
      cases h : (rest.filter (fun e => e.target == t)).getLast? with
      | none => simp [fupd, ht]
      | some y => rfl
    · have hb : (e.target == t) = false := by simp [ht]
      simp only [hb, Bool.false_eq_true, if_false]
      have hf : fupd sn e.target (some e) t = sn t := by
        simp [fupd, Ne.symm ht]
      cases h : (rest.filter (fun e => e.target == t)).getLast? with
      | none => simp [hf]
      | some y => rfl

theorem visGo_records (sn : ℕ → Option ISEntry) (es : List ISEntry) :
    (visGo sn es).2 = (List.range es.length).filterMap (fun i =>
      match es[i]? with
      | some e =>
          if visChanged ((visGo sn (es.take i)).1 e.target) e then some e
          else none
      | none => none) := by
  induction es generalizing sn with
  | nil => rfl
  | cons e rest ih =>
    rw [List.length_cons, List.range_succ_eq_map, List.filterMap_cons,
      List.filterMap_map]
    have hfun : ((fun i =>
        match (e :: rest)[i]? with
        | some e' =>
            if visChanged ((visGo sn ((e :: rest).take i)).1 e'.target) e'
            then some e' else none
        | none => none) ∘ Nat.succ) = (fun i =>
        match rest[i]? with
        | some e' =>
            if visChanged
              ((visGo (fupd sn e.target (some e)) (rest.take i)).1 e'.target)
              e' then some e' else none
        | none => none) := by
      funext i
      have hv : (visGo sn (e :: rest.take i)).1 =
          (visGo (fupd sn e.target (some e)) (rest.take i)).1 := rfl
      simp only [Function.comp_apply, List.getElem?_cons_succ,
        List.take_succ_cons, hv]
    rw [hfun, ← ih]
    have hnil : (visGo sn ([] : List ISEntry)).1 = sn := rfl
    simp only [List.getElem?_cons_zero, List.take_zero, hnil]
    have h2 : (visGo sn (e :: rest)).2 =
        if visChanged (sn e.target) e
        then e :: (visGo (fupd sn e.target (some e)) rest).2
        else (visGo (fupd sn e.target (some e)) rest).2 := rfl
    rw [h2]
    cases hc : visChanged (sn e.target) e <;> simp [hc]

theorem notifyGo_skip (p : ℕ → Option PosEntry) (e : PosEntry)
    (rest : List PosEntry) (h : isEntryEqual e (p e.target) = true) :
    notifyGo p (e :: rest) = notifyGo p rest := by
  simp [notifyGo, h]

theorem notifyGo_accept (p : ℕ → Option PosEntry) (e : PosEntry)
    (rest : List PosEntry) (h : isEntryEqual e (p e.target) = false) :
    notifyGo p (e :: rest) =
      ((notifyGo (fupd p e.target (some e)) rest).1,
       e :: (notifyGo (fupd p e.target (some e)) rest).2) := by
  simp [notifyGo, h]

theorem notifyGo_fst (p : ℕ → Option PosEntry) (es : List PosEntry) (t : ℕ) :
    (notifyGo p es).1 t =
      match ((notifyGo p es).2.filter (fun r => r.target == t)).getLast? with
      | some e => some e
      | none => p t := by
  induction es generalizing p with
  | nil => rfl
  | cons e rest ih =>
    cases hd : isEntryEqual e (p e.target) with
    | true =>
      rw [notifyGo_skip p e rest hd]
      exact ih p
    | false =>
      rw [notifyGo_accept p e rest hd]
      simp only []
      rw [ih, List.filter_cons]
      by_cases ht : e.target = t
      · subst ht
        simp only [beq_self_eq_true, if_true]
        rw [getLast?_cons_eq]
        cases h : ((notifyGo (fupd p e.target (some e)) rest).2.filter
            (fun r => r.target == e.target)).getLast? with
        | none => simp [fupd]
        | some y => rfl
      · have hb : (e.target == t) = false := by simp [ht]
        simp only [hb, Bool.false_eq_true, if_false]
        have hf : fupd p e.target (some e) t = p t := by
          simp [fupd, Ne.symm ht]
        cases h : ((notifyGo (fupd p e.target (some e)) rest).2.filter
            (fun r => r.target == t)).getLast? with
        | none => simp [hf]
        | some y => rfl

theorem notifyGo_records (p : ℕ → Option PosEntry) (es : List PosEntry) :
    (notifyGo p es).2 = (List.range es.length).filterMap (fun i =>
      match es[i]? with
      | some e =>
          if isEntryEqual e ((notifyGo p (es.take i)).1 e.target) then none
          else some e
      | none => none) := by
  induction es generalizing p with
  | nil => rfl
  | cons e rest ih =>
    rw [List.length_cons, List.range_succ_eq_map, List.filterMap_cons,
      List.filterMap_map]
    cases hd : isEntryEqual e (p e.target) with
    | true =>
      have hfun : ((fun i =>
          match (e :: rest)[i]? with
          | some e' =>
              if isEntryEqual e' ((notifyGo p ((e :: rest).take i)).1 e'.target)
              then none else some e'
          | none => none) ∘ Nat.succ) = (fun i =>
          match rest[i]? with
          | some e' =>
              if isEntryEqual e' ((notifyGo p (rest.take i)).1 e'.target)
              then none else some e'
          | none => none) := by
        funext i
        have : (notifyGo p ((e :: rest).take (i + 1))).1 =
            (notifyGo p (rest.take i)).1 := by
          rw [List.take_succ_cons, notifyGo_skip p e (rest.take i) hd]
        simp only [Function.comp, List.getElem?_cons_succ, this]
      rw [hfun, ← ih]
      have hhead : (notifyGo p ([] : List PosEntry)).1 = p := rfl
      rw [notifyGo_skip p e rest hd]
      simp only [List.getElem?_cons_zero, List.take_zero, hhead, hd, if_true]
    | false =>
      have hfun : ((fun i =>
          match (e :: rest)[i]? with
          | some e' =>
              if isEntryEqual e' ((notifyGo p ((e :: rest).take i)).1 e'.target)
              then none else some e'
          | none => none) ∘ Nat.succ) = (fun i =>
          match rest[i]? with
          | some e' =>
              if isEntryEqual e'
                ((notifyGo (fupd p e.target (some e)) (rest.take i)).1
                  e'.target)
              then none else some e'
          | none => none) := by
        funext i
        have : (notifyGo p ((e :: rest).take (i + 1))).1 =
            (notifyGo (fupd p e.target (some e)) (rest.take i)).1 := by
          rw [List.take_succ_cons, notifyGo_accept p e (rest.take i) hd]
        simp only [Function.comp, List.getElem?_cons_succ, this]
      rw [hfun, ← ih]
      rw [notifyGo_accept p e rest hd]
      have hhead : (notifyGo p ([] : List PosEntry)).1 = p := rfl
      simp only [List.getElem?_cons_zero, List.take_zero, hhead, hd,
        Bool.false_eq_true, if_false]

/-- Claim C1: the orchestrator's deduplication gate (`#notify`).  The
`records` actually forwarded are exactly the entries that differ
(`isEntryEqual`) from the entry cached for their target at the moment they
are processed (initial cache for the first occurrence, the last accepted
entry afterwards); the final cache maps every target to the last accepted
entry for it (falling back to the initial cache); the callback is invoked
exactly once, with `records`, when `records` is non-empty; the callback is
never invoked with an empty sequence; and when every entry of the batch is
a duplicate the callback is not invoked at all. -/
theorem C1_dedup_gate (p : ℕ → Option PosEntry) (es : List PosEntry) :
    (notify p es).2.1 = (List.range es.length).filterMap (fun i =>
      match es[i]? with
      | some e =>
          if isEntryEqual e ((notifyGo p (es.take i)).1 e.target) then none
          else some e
      | none => none) ∧
    (∀ t, (notify p es).1 t =
      match ((notify p es).2.1.filter (fun r => r.target == t)).getLast? with
      | some e => some e
      | none => p t) ∧
    (notify p es).2.2 =
      (if (notify p es).2.1 = [] then [] else [(notify p es).2.1]) ∧
    [] ∉ (notify p es).2.2 ∧
    ((notify p es).2.1 = [] → (notify p es).2.2 = []) := by
  have hrec : (notify p es).2.1 = (notifyGo p es).2 := rfl
  have hfst : (notify p es).1 = (notifyGo p es).1 := rfl
  have hcalls : (notify p es).2.2 =
      if (notifyGo p es).2.length > 0 then [(notifyGo p es).2] else [] := rfl
  refine ⟨?_, ?_, ?_, ?_, ?_⟩
  · rw [hrec, notifyGo_records]
  · intro t
    rw [hfst, hrec, notifyGo_fst]
  · rw [hcalls, hrec]
    cases h : (notifyGo p es).2 with
    | nil => rfl
    | cons a l => simp
  · rw [hcalls]
    cases h : (notifyGo p es).2 with
    | nil => simp
    | cons a l => simp
  · intro h
    have h2 : (notifyGo p es).2 = [] := h
    rw [hcalls, h2]
    rfl

/-- Witness for claim C1: a batch consisting of a single entry identical to
the cached entry for its target produces no records and no callback
invocation. -/
theorem C1_dedup_gate_witness :
    (notify
      (fun t => if t = 5 then
        some ⟨5, ⟨0, 0, 10, 10, 0, 0, 10, 10⟩, ⟨0, 0, 10, 10, 0, 0, 10, 10⟩,
          true, ⟨0, 0, 100, 100, 0, 0, 100, 100⟩⟩ else none)
      [⟨5, ⟨0, 0, 10, 10, 0, 0, 10, 10⟩, ⟨0, 0, 10, 10, 0, 0, 10, 10⟩,
        true, ⟨0, 0, 100, 100, 0, 0, 100, 100⟩⟩]).2.1 = [] ∧
    (notify
      (fun t => if t = 5 then
        some ⟨5, ⟨0, 0, 10, 10, 0, 0, 10, 10⟩, ⟨0, 0, 10, 10, 0, 0, 10, 10⟩,
          true, ⟨0, 0, 100, 100, 0, 0, 100, 100⟩⟩ else none)
      [⟨5, ⟨0, 0, 10, 10, 0, 0, 10, 10⟩, ⟨0, 0, 10, 10, 0, 0, 10, 10⟩,
        true, ⟨0, 0, 100, 100, 0, 0, 100, 100⟩⟩]).2.2 = [] := by
  refine ⟨by decide, ?_⟩
  exact (C1_dedup_gate _ _).2.2.2.2 (by decide)

/-- Claim C5: the Visibility Tracker's batching callback.  Snapshots are
stored unconditionally, so the final snapshot for every target is the last
raw result received for it in the batch (falling back to the previous
snapshot); a result is forwarded iff its intersecting-state differs from
the pre-arrival snapshot's or its intersection rectangle is not
`Rect.equals` to the previous one (`visChanged`), each comparison using the
snapshot cached just before that result was stored; and the callback is
invoked, once with the filtered batch, exactly when that batch is
non-empty. -/
theorem C5_visibility_batching (sn : ℕ → Option ISEntry) (es : List ISEntry) :
    (∀ t, (visCallback sn es).1 t =
      match (es.filter (fun e => e.target == t)).getLast? with
      | some e => some e
      | none => sn t) ∧
    (visCallback sn es).2.1 = (List.range es.length).filterMap (fun i =>
      match es[i]? with
      | some e =>
          if visChanged ((visGo sn (es.take i)).1 e.target) e then some e
          else none
      | none => none) ∧
    (visCallback sn es).2.2 =
      (if (visCallback sn es).2.1 = [] then []
       else [(visCallback sn es).2.1]) ∧
    [] ∉ (visCallback sn es).2.2 := by
  have hrec : (visCallback sn es).2.1 = (visGo sn es).2 := rfl
  have hfst : (visCallback sn es).1 = (visGo sn es).1 := rfl
  have hcalls : (visCallback sn es).2.2 =
      if (visGo sn es).2.length > 0 then [(visGo sn es).2] else [] := rfl
  refine ⟨?_, ?_, ?_, ?_⟩
  · intro t
    rw [hfst, visGo_fst]
  · rw [hrec, visGo_records]
  · rw [hcalls, hrec]
    cases h : (visGo sn es).2 with
    | nil => rfl
    | cons a l => simp
  · rw [hcalls]
    cases h : (visGo sn es).2 with
    | nil => simp
    | cons a l => simp

theorem PIOInv_congr (s s' : PIOState) (hc : s'.subConnected = s.subConnected)
    (ho : s'.observer = s.observer) (h : PIOInv s) : PIOInv s' := by
  intro t ht
  rw [hc] at ht
  rw [ho]
  exact h t ht

theorem pioObserve_inv (s : PIOState) (h : PIOInv s) :
    PIOInv (pioObserve s) := by
  cases ho : s.observer with
  | some o =>
    intro t ht
    simp only [pioObserve, ho] at ht ⊢
    by_cases htn : t = s.nextSub
    · subst htn
      rfl
    · exfalso
      simp only [fupd, if_neg htn] at ht
      by_cases hto : t = o
      · subst hto
        simp at ht
      · simp only [if_neg hto] at ht
        have := h t ht
        rw [ho] at this
        exact hto (Option.some.inj this).symm
  | none =>
    intro t ht
    simp only [pioObserve, ho] at ht ⊢
    by_cases htn : t = s.nextSub
    · subst htn
      rfl
    · exfalso
      simp only [fupd, if_neg htn] at ht
      have := h t ht
      rw [ho] at this
      exact Option.noConfusion this

theorem onIntersection_inv (s : PIOState) (es : List RawEntry)
    (h : PIOInv s) : PIOInv ((onIntersection s es).1) := by
  unfold onIntersection
  cases ho : s.observer with
  | none => exact h
  | some o =>
    cases hl : es.getLast? with
    | none => exact h
    | some entry =>
      simp only []
      split
      · split
        · split
          · exact pioObserve_inv
              { observer := some o, subConnected := s.subConnected,
                nextSub := s.nextSub,
                clientRect := entry.boundingClientRect,
                previousIntersectionRatio := some entry.intersectionRatio,
                clip := s.clip, rootBounds := s.rootBounds }
              (PIOInv_congr s
                { observer := some o, subConnected := s.subConnected,
                  nextSub := s.nextSub,
                  clientRect := entry.boundingClientRect,
                  previousIntersectionRatio := some entry.intersectionRatio,
                  clip := s.clip, rootBounds := s.rootBounds }
                rfl ho.symm h)
          · exact PIOInv_congr s
              { observer := some o, subConnected := s.subConnected,
                nextSub := s.nextSub,
                clientRect := entry.boundingClientRect,
                previousIntersectionRatio := some entry.intersectionRatio,
                clip := s.clip, rootBounds := s.rootBounds }
              rfl ho.symm h
        · exact PIOInv_congr s
            { observer := some o, subConnected := s.subConnected,
              nextSub := s.nextSub,
              clientRect := entry.boundingClientRect,
              previousIntersectionRatio := s.previousIntersectionRatio,
              clip := s.clip, rootBounds := s.rootBounds }
            rfl ho.symm h
      · exact PIOInv_congr s
          { observer := some o, subConnected := s.subConnected,
            nextSub := s.nextSub,
            clientRect := entry.boundingClientRect,
            previousIntersectionRatio := s.previousIntersectionRatio,
            clip := s.clip, rootBounds := s.rootBounds }
          rfl ho.symm h

theorem pioStep_inv (s : PIOState) (st : PStep) (h : PIOInv s) :
    PIOInv (pioStep s st) := by
  cases st with
  | inter es => exact onIntersection_inv s es h
  | disc =>
    cases ho : s.observer with
    | none =>
      simp only [pioStep, ho]
      exact h
    | some o =>
      simp only [pioStep, ho]
      intro t ht
      simp only [fupd] at ht
      by_cases hto : t = o
      · simp [hto] at ht
      · simp only [if_neg hto] at ht
        have := h t ht
        rw [ho] at this
        exact this

theorem pioRun_inv (s : PIOState) (steps : List PStep) (h : PIOInv s) :
    PIOInv (pioRun s steps) := by
  induction steps generalizing s with
  | nil => exact h
  | cons st rest ih => exact ih _ (pioStep_inv s st h)

theorem pioInit_inv (clientRect : JSRect) (clip : Option ClipInsets)
    (rootBounds : JSRect) : PIOInv (pioInit clientRect clip rootBounds) := by
  apply pioObserve_inv
  intro t ht
  exact absurd ht (by simp)

/-- Claim C4: in `#onIntersection`, whenever the last delivered entry's
bounding rectangle has empty intersection (zero width or zero height after
clamping) with the stored root bounds, the update is suppressed entirely:
the change callback is not invoked and no re-subscription happens. -/
theorem C4_empty_root_suppresses (s : PIOState) (entries : List RawEntry)
    (entry : RawEntry) (hlast : entries.getLast? = some entry)
    (hempty :
      (Rect.intersect entry.boundingClientRect s.rootBounds).width = 0 ∨
      (Rect.intersect entry.boundingClientRect s.rootBounds).height = 0) :
    (onIntersection s entries).2.1 = none ∧
    (onIntersection s entries).2.2 = false := by
  have hii : (decide
      ((Rect.intersect entry.boundingClientRect s.rootBounds).width > 0) &&
      decide
      ((Rect.intersect entry.boundingClientRect s.rootBounds).height > 0))
      = false := by
    rcases hempty with h | h
    · rw [h]
      simp
    · rw [h]
      simp
  unfold onIntersection
  cases ho : s.observer with
  | none => exact ⟨rfl, rfl⟩
  | some o =>
    rw [hlast]
    simp only []
    split
    · rw [hii]
      simp
    · simp

theorem OrchInv_congr (s s' : OrchState)
    (hc : s'.connected = s.connected) (ho : s'.owner = s.owner)
    (hm : s'.positionObservers = s.positionObservers)
    (hn : s'.nextTracker = s.nextTracker) (h : OrchInv s) : OrchInv s' := by
  intro t ht
  rw [hc] at ht
  rw [ho, hm, hn]
  exact h t ht

theorem observePosition_inv (s : OrchState) (e : ℕ) (r : JSRect)
    (h : OrchInv s) : OrchInv (observePosition s e r).1 := by
  intro t ht
  cases hga : getA s.positionObservers e with
  | some t0 =>
    have hconn : (observePosition s e r).1.connected =
        fupd (fupd s.connected t0 false) s.nextTracker true := by
      simp [observePosition, disconnectTracker, hga]
    have howner : (observePosition s e r).1.owner =
        fupd s.owner s.nextTracker e := by
      simp [observePosition, disconnectTracker, hga]
    have hmap : (observePosition s e r).1.positionObservers =
        setA s.positionObservers e s.nextTracker := by
      simp [observePosition, disconnectTracker, hga]
    have hnext : (observePosition s e r).1.nextTracker =
        s.nextTracker + 1 := by
      simp [observePosition, disconnectTracker, hga]
    rw [hconn] at ht
    rw [howner, hmap, hnext]
    by_cases htn : t = s.nextTracker
    · subst htn
      simp only [fupd, if_pos rfl]
      exact ⟨getA_setA_self _ _ _, Nat.lt_succ_self _⟩
    · simp only [fupd, if_neg htn] at ht
      by_cases htt0 : t = t0
      · simp only [fupd, if_pos htt0] at ht
        exact absurd ht (by simp)
      · simp only [fupd, if_neg htt0] at ht
        obtain ⟨hm, hlt⟩ := h t ht
        have hne : s.owner t ≠ e := by
          intro heq
          rw [heq, hga] at hm
          exact htt0 (Option.some.inj hm).symm
        simp only [fupd, if_neg htn]
        rw [getA_setA_ne _ _ _ _ hne]
        exact ⟨hm, Nat.lt_succ_of_lt hlt⟩
  | none =>
    have hconn : (observePosition s e r).1.connected =
        fupd s.connected s.nextTracker true := by
      simp [observePosition, disconnectTracker, hga]
    have howner : (observePosition s e r).1.owner =
        fupd s.owner s.nextTracker e := by
      simp [observePosition, disconnectTracker, hga]
    have hmap : (observePosition s e r).1.positionObservers =
        setA s.positionObservers e s.nextTracker := by
      simp [observePosition, disconnectTracker, hga]
    have hnext : (observePosition s e r).1.nextTracker =
        s.nextTracker + 1 := by
      simp [observePosition, disconnectTracker, hga]
    rw [hconn] at ht
    rw [howner, hmap, hnext]
    by_cases htn : t = s.nextTracker
    · subst htn
      simp only [fupd, if_pos rfl]
      exact ⟨getA_setA_self _ _ _, Nat.lt_succ_self _⟩
    · simp only [fupd, if_neg htn] at ht
      obtain ⟨hm, hlt⟩ := h t ht
      have hne : s.owner t ≠ e := by
        intro heq
        rw [heq, hga] at hm
        exact Option.noConfusion hm
      simp only [fupd, if_neg htn]
      rw [getA_setA_ne _ _ _ _ hne]
      exact ⟨hm, Nat.lt_succ_of_lt hlt⟩

theorem visHide_inv (s : OrchState) (e : ℕ) (h : OrchInv s) :
    OrchInv {disconnectTracker s (getA s.positionObservers e) with
      positionObservers :=
        delA (disconnectTracker s (getA s.positionObservers e)).positionObservers
          e} := by
  intro t ht
  cases hga : getA s.positionObservers e with
  | some t0 =>
    simp only [disconnectTracker, hga] at ht ⊢
    by_cases htt0 : t = t0
    · simp only [fupd, if_pos htt0] at ht
      exact absurd ht (by simp)
    · simp only [fupd, if_neg htt0] at ht
      obtain ⟨hm, hlt⟩ := h t ht
      have hne : s.owner t ≠ e := by
        intro heq
        rw [heq, hga] at hm
        exact htt0 (Option.some.inj hm).symm
      rw [getA_delA_ne _ _ _ hne]
      exact ⟨hm, hlt⟩
  | none =>
    simp only [disconnectTracker, hga] at ht ⊢
    obtain ⟨hm, hlt⟩ := h t ht
    have hne : s.owner t ≠ e := by
      intro heq
      rw [heq, hga] at hm
      exact Option.noConfusion hm
    rw [getA_delA_ne _ _ _ hne]
    exact ⟨hm, hlt⟩

theorem applyNotify_inv (s : OrchState) (records : List PosEntry)
    (h : OrchInv s) : OrchInv (applyNotify s records) := by
  refine OrchInv_congr s _ ?_ ?_ ?_ ?_ h <;> rfl

theorem unobserve_inv (s : OrchState) (e : ℕ) (h : OrchInv s) :
    OrchInv (unobserve s e) := by
  intro t ht
  cases hga : getA s.positionObservers e with
  | some t0 =>
    simp only [unobserve, disconnectTracker, hga] at ht ⊢
    by_cases htt0 : t = t0
    · simp only [fupd, if_pos htt0] at ht
      exact absurd ht (by simp)
    · simp only [fupd, if_neg htt0] at ht
      exact h t ht
  | none =>
    simp only [unobserve, disconnectTracker, hga] at ht ⊢
    exact h t ht

theorem foldl_fupd_false_eq (l : List ℕ) (c : ℕ → Bool) (t : ℕ)
    (h : (l.foldl (fun c v => fupd c v false) c) t = true) :
    c t = true ∧ t ∉ l := by
  induction l generalizing c with
  | nil => exact ⟨h, by simp⟩
  | cons a rest ih =>
    obtain ⟨h1, h2⟩ := ih (fupd c a false) h
    by_cases hta : t = a
    · subst hta
      simp [fupd] at h1
    · simp only [fupd, if_neg hta] at h1
      exact ⟨h1, by simp [hta, h2]⟩

theorem disconnect_inv (s : OrchState) (h : OrchInv s) :
    OrchInv (disconnect s) := by
  intro t ht
  have hconn : (disconnect s).connected t =
      (s.positionObservers.map Prod.snd).foldl
        (fun c v => fupd c v false) s.connected t := rfl
  rw [hconn] at ht
  obtain ⟨h1, h2⟩ := foldl_fupd_false_eq _ _ _ ht
  obtain ⟨hm, _⟩ := h t h1
  exact absurd (getA_mem_snd _ _ _ hm) h2

theorem foldl_inv_fst {α : Type}
    (f : OrchState × List PosEntry → α → OrchState × List PosEntry)
    (hf : ∀ acc a, OrchInv acc.1 → OrchInv (f acc a).1)
    (l : List α) (acc : OrchState × List PosEntry) (h : OrchInv acc.1) :
    OrchInv (l.foldl f acc).1 := by
  induction l generalizing acc with
  | nil => exact h
  | cons a rest ih => exact ih _ (hf acc a h)

theorem onVisibilityChange_inv (s : OrchState) (entries : List ISEntry)
    (h : OrchInv s) : OrchInv (onVisibilityChange s entries) := by
  unfold onVisibilityChange
  refine applyNotify_inv _ _ ?_
  refine foldl_inv_fst _ ?_ _ _ h
  intro acc entry hinv
  dsimp only []
  split
  · refine OrchInv_congr _ _ ?_ ?_ ?_ ?_
      (observePosition_inv acc.1 entry.target entry.boundingClientRect hinv)
      <;> rfl
  · refine OrchInv_congr _ _ ?_ ?_ ?_ ?_
      (visHide_inv acc.1 entry.target hinv) <;> rfl

theorem onVisibilityRaw_inv (s : OrchState) (raw : List ISEntry)
    (h : OrchInv s) : OrchInv (onVisibilityRaw s raw) := by
  unfold onVisibilityRaw
  dsimp only []
  split
  · refine onVisibilityChange_inv _ _ ?_
    refine OrchInv_congr s _ ?_ ?_ ?_ ?_ h <;> rfl
  · refine OrchInv_congr s _ ?_ ?_ ?_ ?_ h <;> rfl

theorem onPositionChange_inv (s : OrchState) (t : ℕ) (entry : PosEntry)
    (h : OrchInv s) : OrchInv (onPositionChange s t entry) := by
  unfold onPositionChange
  refine applyNotify_inv _ _ ?_
  refine OrchInv_congr s _ ?_ ?_ ?_ ?_ h <;> rfl

theorem onRootBoundsChange_inv (s : OrchState) (rb : JSRect)
    (measure : ℕ → JSRect) (h : OrchInv s) :
    OrchInv (onRootBoundsChange s rb measure) := by
  unfold onRootBoundsChange
  refine applyNotify_inv _ _ ?_
  refine foldl_inv_fst _ ?_ _ _ ?_
  · intro acc a hinv
    dsimp only []
    exact observePosition_inv acc.1 a (measure a) hinv
  · refine OrchInv_congr s _ ?_ ?_ ?_ ?_ h <;> rfl

theorem onResize_inv (s : OrchState) (entries : List RsEntry)
    (h : OrchInv s) : OrchInv (onResize s entries) := by
  unfold onResize
  refine applyNotify_inv _ _ ?_
  refine foldl_inv_fst _ ?_ _ _ h
  intro acc entry hinv
  dsimp only []
  split
  · exact hinv
  · exact observePosition_inv acc.1 entry.target entry.measuredRect hinv

theorem stepOp_inv (s : OrchState) (op : Op) (h : OrchInv s) :
    OrchInv (stepOp s op) := by
  cases op with
  | observe e =>
    refine OrchInv_congr s _ ?_ ?_ ?_ ?_ h <;> rfl
  | unobserve e => exact unobserve_inv s e h
  | disconnect => exact disconnect_inv s h
  | visibility raw => exact onVisibilityRaw_inv s raw h
  | posChange t entry => exact onPositionChange_inv s t entry h
  | rootBoundsChange rb measure => exact onRootBoundsChange_inv s rb measure h
  | resize entries => exact onResize_inv s entries h

theorem runOps_inv (s : OrchState) (ops : List Op) (h : OrchInv s) :
    OrchInv (runOps s ops) := by
  induction ops generalizing s with
  | nil => exact h
  | cons op rest ih => exact ih _ (stepOp_inv s op h)

theorem initOrch_inv (rb : JSRect) : OrchInv (initOrch rb) := by
  intro t ht
  exact absurd ht (by simp [initOrch])

/-- Witness for claim C4: a concrete tracker state and a delivered batch
whose last entry's bounding rectangle misses the stored root bounds; the
callback is not invoked and no re-subscription happens. -/
theorem C4_empty_root_suppresses_witness :
    [farEntry].getLast? = some farEntry ∧
    (Rect.intersect farEntry.boundingClientRect pioSample.rootBounds).width
      = 0 ∧
    (onIntersection pioSample [farEntry]).2.1 = none ∧
    (onIntersection pioSample [farEntry]).2.2 = false := by
  have hw : (Rect.intersect farEntry.boundingClientRect
      pioSample.rootBounds).width = 0 := by
    simp only [Rect.intersect, mkDOMRect, farEntry, farRect, pioSample,
      rootRect]
    norm_num [min_def, max_def]
  have hc := C4_empty_root_suppresses pioSample [farEntry] farEntry rfl
    (Or.inl hw)
  exact ⟨rfl, hw, hc.1, hc.2⟩

/-- Claim C3: at most one active Fine Position Tracker exists per observed
element at any time (every orchestrator operation that creates one first
disconnects the element's previous tracker), and, inside a tracker, at most
one inner intersection subscription is connected at any time (the internal
re-subscription disconnects the prior one first). -/
theorem C3_single_tracker :
    (∀ (rb : JSRect) (ops : List Op) (t₁ t₂ : ℕ),
      (runOps (initOrch rb) ops).connected t₁ = true →
      (runOps (initOrch rb) ops).connected t₂ = true →
      (runOps (initOrch rb) ops).owner t₁ = (runOps (initOrch rb) ops).owner t₂ →
      t₁ = t₂) ∧
    (∀ (clientRect : JSRect) (clip : Option ClipInsets) (rootBounds : JSRect)
      (steps : List PStep) (u₁ u₂ : ℕ),
      (pioRun (pioInit clientRect clip rootBounds) steps).subConnected u₁
        = true →
      (pioRun (pioInit clientRect clip rootBounds) steps).subConnected u₂
        = true →
      u₁ = u₂) := by
  constructor
  · intro rb ops t₁ t₂ h₁ h₂ how
    have hinv := runOps_inv (initOrch rb) ops (initOrch_inv rb)
    obtain ⟨hm₁, _⟩ := hinv t₁ h₁
    obtain ⟨hm₂, _⟩ := hinv t₂ h₂
    rw [how, hm₂] at hm₁
    exact (Option.some.inj hm₁).symm
  · intro clientRect clip rootBounds steps u₁ u₂ h₁ h₂
    have hinv := pioRun_inv _ steps (pioInit_inv clientRect clip rootBounds)
    have e₁ := hinv u₁ h₁
    have e₂ := hinv u₂ h₂
    rw [e₁] at e₂
    exact Option.some.inj e₂

/-- Witness for claim C3: after one visibility batch reporting element 5
intersecting, tracker 0 is connected (and trivially unique); a freshly
constructed tracker has inner subscription 0 connected (and trivially
unique). -/
theorem C3_single_tracker_witness :
    (runOps (initOrch rootRect)
      [Op.visibility [⟨5, true, unitRect, unitRect⟩]]).connected 0 = true ∧
    (0 : ℕ) = 0 ∧
    (pioRun (pioInit unitRect none rootRect) []).subConnected 0 = true ∧
    (0 : ℕ) = 0 := by
  refine ⟨by decide, ?_, by decide, ?_⟩
  · exact C3_single_tracker.1 rootRect
      [Op.visibility [⟨5, true, unitRect, unitRect⟩]] 0 0
      (by decide) (by decide) rfl
  · exact C3_single_tracker.2 unitRect none rootRect [] 0 0
      (by decide) (by decide)

/-- Claim C2 counterexample: after element 5 becomes visible (getting a
tracker and a coarse resize subscription), `unobserve(5)` leaves the
element's resize subscription active and leaves the (disconnected) tracker
in the tracker map — contradicting the claim that `unobserve` removes the
coarse size subscription and discards the tracker. -/
theorem C2_counterexample :
    (runOps (initOrch rootRect)
      [Op.visibility [⟨5, true, unitRect, unitRect⟩],
       Op.unobserve 5]).resizeObserved 5 = true ∧
    getA (runOps (initOrch rootRect)
      [Op.visibility [⟨5, true, unitRect, unitRect⟩],
       Op.unobserve 5]).positionObservers 5 = some 0 := by
  exact ⟨by decide, by decide⟩

/-- Claim C2 (amended): `unobserve(element)` disconnects the element's Fine
Position Tracker (if any) but leaves it in the tracker map, removes the
element from the Visibility Tracker, discards the element's cached
intersection snapshot, and drops the element's cached last-accepted entry;
it does not touch the coarse size (resize) subscriptions. -/
theorem C2_unobserve (s : OrchState) (e : ℕ) :
    (∀ t, getA s.positionObservers e = some t →
      (unobserve s e).connected t = false) ∧
    (unobserve s e).positionObservers = s.positionObservers ∧
    (unobserve s e).visibilityObserved e = false ∧
    (unobserve s e).intersections e = none ∧
    (unobserve s e).positions e = none ∧
    (unobserve s e).resizeObserved = s.resizeObserved := by
  refine ⟨?_, ?_, ?_, ?_, ?_, ?_⟩
  · intro t ht
    have hc : (unobserve s e).connected = fupd s.connected t false := by
      simp [unobserve, disconnectTracker, ht]
    rw [hc]
    simp [fupd]
  · cases hga : getA s.positionObservers e <;>
      simp [unobserve, disconnectTracker, hga]
  · cases hga : getA s.positionObservers e <;>
      simp [unobserve, disconnectTracker, hga, fupd]
  · cases hga : getA s.positionObservers e <;>
      simp [unobserve, disconnectTracker, hga, fupd]
  · cases hga : getA s.positionObservers e <;>
      simp [unobserve, disconnectTracker, hga, fupd]
  · cases hga : getA s.positionObservers e <;>
      simp [unobserve, disconnectTracker, hga]

/-- Witness for claim C2 at a state where element 5 has tracker 0:
`unobserve` disconnects that tracker. -/
theorem C2_unobserve_witness :
    getA (runOps (initOrch rootRect)
      [Op.visibility [⟨5, true, unitRect, unitRect⟩]]).positionObservers 5
      = some 0 ∧
    (unobserve (runOps (initOrch rootRect)
      [Op.visibility [⟨5, true, unitRect, unitRect⟩]]) 5).connected 0
      = false := by
  refine ⟨by decide, ?_⟩
  exact (C2_unobserve (runOps (initOrch rootRect)
    [Op.visibility [⟨5, true, unitRect, unitRect⟩]]) 5).1 0 (by decide)

/-- Witness for claim C5: a batch with one first-time entry forwards it and
never invokes the callback with an empty sequence. -/
theorem C5_visibility_batching_witness :
    [] ∉ (visCallback (fun _ => none)
      [(⟨5, true, unitRect, unitRect⟩ : ISEntry)]).2.2 ∧
    (visCallback (fun _ => none)
      [(⟨5, true, unitRect, unitRect⟩ : ISEntry)]).2.1 =
      [(⟨5, true, unitRect, unitRect⟩ : ISEntry)] := by
  refine ⟨(C5_visibility_batching (fun _ => none)
    [(⟨5, true, unitRect, unitRect⟩ : ISEntry)]).2.2.2, by decide⟩

end PosObs

